import Mathlib

/-!
# Verification of the bored-topia backend (src/api/index.js)

Shallow embedding of the Express + MySQL backend.  Tables are modelled as
Lean lists kept in insertion order (MySQL auto-increment primary keys scan
in id order), SQL `SELECT ... LIMIT 1` as `List.find?`, `UPDATE` as
`List.map`, and `INSERT` as appending.  JavaScript request values that may
be `null`/`undefined` are modelled by the `ScoreInput` type together with
the exact JS coercions the handlers perform (`isNaN`, `< 0`, `!x`,
`x || 0`, `Math.floor(x * 0.5)`).
-/

set_option autoImplicit false

namespace BoredTopia

/-- A row of the `players` table:
`players(userAddress PK, score, tokenBalance, gamesPlayed, bonusReceived, timestamp)`. -/
structure Player where
  userAddress : String
  score : Int
  tokenBalance : Int
  gamesPlayed : Nat
  bonusReceived : Bool
  timestamp : Nat
  deriving Repr, DecidableEq

/-- A row of the `rooms` table: `rooms(id PK auto-increment, room_name, status)`.
Rooms are always inserted with status `"available"`. -/
structure Room where
  id : Nat
  room_name : String
  status : String
  deriving Repr, DecidableEq

/-- A row of the `players_in_room` table: `players_in_room(userAddress, room_id)`. -/
structure RoomMembership where
  userAddress : String
  room_id : Nat
  deriving Repr, DecidableEq

/-- A row of the `invitations` table:
`invitations(inviterAddress, inviteeAddress, bonusApplied)`. -/
structure Invitation where
  inviterAddress : String
  inviteeAddress : String
  bonusApplied : Bool
  deriving Repr, DecidableEq

/-- The whole MySQL database.  Each list is in insertion order; `nextRoomId`
models the auto-increment counter of `rooms.id` (MySQL starts at 1). -/
structure DB where
  players : List Player
  rooms : List Room
  players_in_room : List RoomMembership
  invitations : List Invitation
  nextRoomId : Nat
  deriving Repr, DecidableEq

/-- The empty database. -/
def emptyDB : DB := ⟨[], [], [], [], 1⟩

/-- A JSON `score` field as the JS handler receives it: a number, `null`
(present but null in the JSON body), or `undefined` (field absent). -/
inductive ScoreInput where
  | num (n : Int)
  | jsNull
  | undef
  deriving Repr, DecidableEq

namespace ScoreInput

/-- JS `isNaN(score)`: `isNaN(undefined) = true`, `isNaN(null) = false`
(`Number(null) = 0`), `isNaN(n) = false` for a number `n`. -/
def jsIsNaN : ScoreInput → Bool
  | num _ => false
  | jsNull => false
  | undef => true

/-- JS `score < 0`: `null < 0` is false (`Number(null) = 0`), `undefined < 0`
is false (`NaN < 0` is false). -/
def jsLtZero : ScoreInput → Bool
  | num n => decide (n < 0)
  | jsNull => false
  | undef => false

/-- JS `!score`: `0`, `null` and `undefined` are falsy, other numbers truthy. -/
def jsFalsy : ScoreInput → Bool
  | num n => decide (n = 0)
  | jsNull => true
  | undef => true

/-- JS `score || 0`: falsy values are replaced by `0`. -/
def jsOrZero : ScoreInput → Int
  | num n => n
  | jsNull => 0
  | undef => 0

/-- JS `Math.floor(score * 0.5)`.  For an integer `n`, `n * 0.5` is exact in
floating point, so this is floor division by 2 (`Int.fdiv`); `null` coerces
to `0`.  (`undefined` never reaches this computation: both handlers reject
it first, so its value here is irrelevant; we use `0`.) -/
def jsFloorHalf : ScoreInput → Int
  | num n => Int.fdiv n 2
  | jsNull => 0
  | undef => 0

@[simp] theorem jsOrZero_num (n : Int) : jsOrZero (num n) = n := rfl

@[simp] theorem jsFloorHalf_num (n : Int) : jsFloorHalf (num n) = Int.fdiv n 2 := rfl

end ScoreInput

/-- The query `SELECT * FROM players WHERE userAddress = ?` (first match). -/
def lookupPlayer (players : List Player) (addr : String) : Option Player :=
  players.find? (fun p => p.userAddress == addr)

/-- The count `SELECT COUNT(pir.userAddress) ... WHERE pir.room_id = ?`: the number of
memberships pointing at a room (the `LEFT JOIN` makes this 0 for an empty
room). -/
def occupantCount (db : DB) (roomId : Nat) : Nat :=
  (db.players_in_room.filter (fun m => m.room_id == roomId)).length

/-- The `/assign-room` available-room query:
`SELECT r.id, COUNT(pir.userAddress) AS player_count FROM rooms r LEFT JOIN
players_in_room pir ON r.id = pir.room_id WHERE r.status = "available"
GROUP BY r.id HAVING player_count < 48 LIMIT 1`, scanning rooms in primary
key order. -/
def availableRoom (db : DB) : Option Room :=
  db.rooms.find? (fun r => r.status == "available" && decide (occupantCount db r.id < 48))

/-- Result of `POST /assign-room`: HTTP status, database after the call,
and the `roomId` in the response body. -/
structure AssignResult where
  status : Nat
  db : DB
  roomId : Nat
  deriving Repr, DecidableEq

/-- Handler `POST /assign-room` (src/api/index.js lines 59-116).  There is no input
validation: the handler goes straight to the store.  `now` models
`Date.now()`, used only for the new room's name. -/
def assignRoom (db : DB) (userAddress : String) (now : Nat) : AssignResult :=
  match db.players_in_room.find? (fun m => m.userAddress == userAddress) with
  | some m => ⟨200, db, m.room_id⟩
  | none =>
    match availableRoom db with
    | some r =>
        ⟨200, { db with players_in_room := db.players_in_room ++ [⟨userAddress, r.id⟩] }, r.id⟩
    | none =>
        let roomId := db.nextRoomId
        ⟨200,
         { db with
            rooms := db.rooms ++ [⟨roomId, "Room " ++ toString now, "available"⟩],
            nextRoomId := roomId + 1,
            players_in_room := db.players_in_room ++ [⟨userAddress, roomId⟩] },
         roomId⟩

/-- The `/submit-score` upsert (lines 134-149):
`INSERT INTO players (userAddress, score, tokenBalance, gamesPlayed, timestamp)
VALUES (?, ?, ?, 1, NOW()) ON DUPLICATE KEY UPDATE
score = GREATEST(score, VALUES(score)), tokenBalance = VALUES(tokenBalance),
gamesPlayed = gamesPlayed + 1, timestamp = NOW()`.
`bonusReceived` is not listed, so an insert gets the column default `false`. -/
def upsertPlayer (players : List Player) (addr : String) (score tokenBalance : Int)
    (now : Nat) : List Player :=
  if players.any (fun p => p.userAddress == addr) then
    players.map (fun p =>
      if p.userAddress == addr then
        { p with
            score := max p.score score,
            tokenBalance := tokenBalance,
            gamesPlayed := p.gamesPlayed + 1,
            timestamp := now }
      else p)
  else
    players ++ [⟨addr, score, tokenBalance, 1, false, now⟩]

/-- The query `SELECT * FROM invitations WHERE inviteeAddress = ? AND bonusApplied = FALSE`. -/
def findUnappliedInvite (invs : List Invitation) (invitee : String) : Option Invitation :=
  invs.find? (fun i => i.inviteeAddress == invitee && !i.bonusApplied)

/-- The update `UPDATE players SET score = score + ?, bonusReceived = TRUE WHERE userAddress = ?`. -/
def addScore (players : List Player) (addr : String) (bonus : Int) : List Player :=
  players.map (fun p =>
    if p.userAddress == addr then
      { p with score := p.score + bonus, bonusReceived := true }
    else p)

/-- The update `UPDATE invitations SET bonusApplied = TRUE WHERE inviteeAddress = ?`. -/
def markApplied (invs : List Invitation) (invitee : String) : List Invitation :=
  invs.map (fun i =>
    if i.inviteeAddress == invitee then { i with bonusApplied := true } else i)

/-- The three bonus writes shared verbatim by `/submit-score` (lines 161-175)
and `/apply-bonus` (lines 369-387): add the bonus to the inviter's row, add
it to the invitee's row, and flag the invitation as applied. -/
def awardBonus (db : DB) (inviter invitee : String) (bonus : Int) : DB :=
  { db with
      players := addScore (addScore db.players inviter bonus) invitee bonus,
      invitations := markApplied db.invitations invitee }

/-- Handler `POST /submit-score` (lines 120-186): validation (`!userAddress`, then
`isNaN(score) || score < 0`), the upsert with `score || 0` and
`tokenBalance ?? 0`, then the implicit referral-bonus check.  Returns the
HTTP status and the database after the call. -/
def submitScore (db : DB) (userAddress : String) (score : ScoreInput)
    (tokenBalance : Option Int) (now : Nat) : Nat × DB :=
  if userAddress == "" then (400, db)
  else if score.jsIsNaN || score.jsLtZero then (400, db)
  else
    let db1 := { db with
      players := upsertPlayer db.players userAddress score.jsOrZero
        (tokenBalance.getD 0) now }
    match findUnappliedInvite db1.invitations userAddress with
    | none => (200, db1)
    | some inv => (200, awardBonus db1 inv.inviterAddress userAddress score.jsFloorHalf)

/-- Handler `POST /apply-bonus` (lines 344-395): rejects `!inviteeAddress || !score`,
then looks for an unapplied invitation and performs the same three bonus
writes as `/submit-score`. -/
def applyBonus (db : DB) (inviteeAddress : String) (score : ScoreInput) : Nat × DB :=
  if inviteeAddress == "" || score.jsFalsy then (400, db)
  else
    match findUnappliedInvite db.invitations inviteeAddress with
    | none => (400, db)
    | some inv => (200, awardBonus db inv.inviterAddress inviteeAddress score.jsFloorHalf)

/-- Handler `POST /submit-invite` (lines 302-341): rejects a missing code, rejects a
duplicate invitee, otherwise inserts
`INSERT INTO invitations (inviterAddress, inviteeAddress) VALUES
('sample-inviter-address', code)` (with `bonusApplied` defaulting to false). -/
def submitInvite (db : DB) (code : String) : Nat × DB :=
  if code == "" then (400, db)
  else if db.invitations.any (fun i => i.inviteeAddress == code) then (400, db)
  else (200, { db with
    invitations := db.invitations ++ [⟨"sample-inviter-address", code, false⟩] })

/-- Handler `GET /invites-count/:userAddress` (lines 399-417):
`SELECT COUNT(*) FROM invitations WHERE inviterAddress = ?`. -/
def inviteCount (db : DB) (userAddress : String) : Nat :=
  (db.invitations.filter (fun i => i.inviterAddress == userAddress)).length

/-- Insert one scored row into a list sorted by score descending, after all
rows with a score `≥` its own (the stable order `ORDER BY score DESC`
produces). -/
def insertScoreDesc (x : String × Int) : List (String × Int) → List (String × Int)
  | [] => [x]
  | y :: ys => if y.2 < x.2 then x :: y :: ys else y :: insertScoreDesc x ys

/-- The ordering `ORDER BY score DESC` as a stable insertion sort. -/
def sortScoreDesc : List (String × Int) → List (String × Int)
  | [] => []
  | x :: xs => insertScoreDesc x (sortScoreDesc xs)

/-- The rows of the `/leaderboard/:roomId` join before ordering:
`SELECT p.userAddress, p.score FROM players p JOIN players_in_room pir ON
p.userAddress = pir.userAddress WHERE pir.room_id = ?` (each player has at
most one membership, so the join keeps the players that belong to the room). -/
def roomScores (db : DB) (roomId : Nat) : List (String × Int) :=
  (db.players.filter (fun p =>
      db.players_in_room.any (fun m => m.userAddress == p.userAddress && m.room_id == roomId))).map
    (fun p => (p.userAddress, p.score))

/-- The `results` of the `/leaderboard/:roomId` handler: the room's rows
`ORDER BY score DESC LIMIT 11`. -/
def leaderboardResults (db : DB) (roomId : Nat) : List (String × Int) :=
  (sortScoreDesc (roomScores db roomId)).take 11

/-- Handler `GET /leaderboard/:roomId` (lines 191-229): top 11 by score descending;
if fewer than 6 rows, return them unchanged; otherwise
`bonus = Math.floor(results[5].score / 10)` is added to every row except
index 5.  A pure read: the database is not modified. -/
def leaderboard (db : DB) (roomId : Nat) : List (String × Int) :=
  if (leaderboardResults db roomId).length < 6 then
    leaderboardResults db roomId
  else
    (leaderboardResults db roomId).enum.map (fun ip =>
      if ip.1 ≠ 5 then
        (ip.2.1, ip.2.2 + Int.fdiv ((leaderboardResults db roomId).getD 5 ("", 0)).2 10)
      else ip.2)

/-- The leaderboard as §4.3/§8 of the spec word it: players of the room
ordered by score descending, limited to the top 11; when at least 6 entries
exist, take the 6th-ranked player's score, let `bonus = floor(that / 10)`,
and add it to every *other* displayed player's score; with fewer than 6
entries the scores are unmodified.  (Written from the spec, to be compared
with `leaderboard`, which is written from the code.) -/
def leaderboardSpec (db : DB) (roomId : Nat) : List (String × Int) :=
  if h : 6 ≤ (leaderboardResults db roomId).length then
    (leaderboardResults db roomId).enum.map (fun ip =>
      if ip.1 = 5 then ip.2
      else
        (ip.2.1,
         ip.2.2 + Int.fdiv ((leaderboardResults db roomId).get ⟨5, by omega⟩).2 10))
  else leaderboardResults db roomId

end BoredTopia

namespace BoredTopia

/-! ## Generic list lemmas -/

theorem find?_append_of_none {α : Type} (p : α → Bool) (l l' : List α)
    (h : l.find? p = none) : (l ++ l').find? p = l'.find? p := by
  rw [List.find?_append, h, Option.none_or]

theorem find?_append_of_some {α : Type} (p : α → Bool) (l l' : List α) (x : α)
    (h : l.find? p = some x) : (l ++ l').find? p = some x := by
  rw [List.find?_append, h]
  rfl

theorem find?_map_of_pred {α : Type} (p : α → Bool) (f : α → α)
    (hf : ∀ x, p (f x) = p x) (l : List α) :
    (l.map f).find? p = (l.find? p).map f := by
  induction l with
  | nil => rfl
  | cons x xs ih =>
    simp only [List.map_cons, List.find?_cons, hf x]
    cases hx : p x
    · simpa using ih
    · rfl

/-! ## Lemmas about player lookup -/

theorem lookupPlayer_addr (ps : List Player) (a : String) (p : Player)
    (h : lookupPlayer ps a = some p) : p.userAddress = a := by
  have h' : ps.find? (fun q => q.userAddress == a) = some p := h
  have hb := List.find?_some h'
  simpa using hb

theorem lookupPlayer_map (f : Player → Player)
    (hf : ∀ p, (f p).userAddress = p.userAddress) (ps : List Player) (a : String) :
    lookupPlayer (ps.map f) a = (lookupPlayer ps a).map f := by
  unfold lookupPlayer
  exact find?_map_of_pred _ f (fun x => by rw [hf x]) ps

theorem lookupPlayer_append_left (ps l : List Player) (a : String) (p : Player)
    (h : lookupPlayer ps a = some p) : lookupPlayer (ps ++ l) a = some p :=
  find?_append_of_some _ ps l p h

theorem lookupPlayer_append_of_none (ps l : List Player) (a : String)
    (h : lookupPlayer ps a = none) :
    lookupPlayer (ps ++ l) a = l.find? (fun p => p.userAddress == a) :=
  find?_append_of_none _ ps l h

end BoredTopia

namespace BoredTopia

/-! ## Upsert semantics -/

theorem upsert_update_addr (addr : String) (s t : Int) (now : Nat) :
    ∀ p : Player,
      ((if p.userAddress == addr then
          { p with
              score := max p.score s,
              tokenBalance := t,
              gamesPlayed := p.gamesPlayed + 1,
              timestamp := now }
        else p) : Player).userAddress = p.userAddress := by
  intro p
  by_cases hq : p.userAddress == addr <;> simp [hq]

theorem upsertPlayer_existing (ps : List Player) (addr : String) (s t : Int) (now : Nat)
    (p : Player) (h : lookupPlayer ps addr = some p) :
    lookupPlayer (upsertPlayer ps addr s t now) addr =
      some { p with
              score := max p.score s,
              tokenBalance := t,
              gamesPlayed := p.gamesPlayed + 1,
              timestamp := now } := by
  have h' : ps.find? (fun q => q.userAddress == addr) = some p := h
  have hmem : p ∈ ps := List.mem_of_find?_eq_some h'
  have hb0 := List.find?_some h'
  have hb : (p.userAddress == addr) = true := hb0
  have hany : ps.any (fun q => q.userAddress == addr) = true :=
    List.any_eq_true.2 ⟨p, hmem, hb⟩
  unfold upsertPlayer
  rw [if_pos hany]
  rw [lookupPlayer_map _ (upsert_update_addr addr s t now) ps addr, h]
  simp only [Option.map_some']
  rw [if_pos hb]

theorem upsertPlayer_new (ps : List Player) (addr : String) (s t : Int) (now : Nat)
    (h : lookupPlayer ps addr = none) :
    upsertPlayer ps addr s t now = ps ++ [⟨addr, s, t, 1, false, now⟩] := by
  have h' : ps.find? (fun q => q.userAddress == addr) = none := h
  have hany : ¬ ps.any (fun q => q.userAddress == addr) = true := by
    intro hc
    obtain ⟨q, hq, hq2⟩ := List.any_eq_true.1 hc
    exact List.find?_eq_none.1 h' q hq hq2
  unfold upsertPlayer
  rw [if_neg hany]

theorem upsertPlayer_new_lookup (ps : List Player) (addr : String) (s t : Int) (now : Nat)
    (h : lookupPlayer ps addr = none) :
    lookupPlayer (upsertPlayer ps addr s t now) addr = some ⟨addr, s, t, 1, false, now⟩ := by
  rw [upsertPlayer_new ps addr s t now h]
  rw [lookupPlayer_append_of_none ps _ addr h]
  simp [lookupPlayer, List.find?_cons]

theorem upsertPlayer_other (ps : List Player) (addr : String) (s t : Int) (now : Nat)
    (a : String) (ha : a ≠ addr) :
    lookupPlayer (upsertPlayer ps addr s t now) a = lookupPlayer ps a := by
  unfold upsertPlayer
  by_cases hany : ps.any (fun q => q.userAddress == addr) = true
  · rw [if_pos hany]
    rw [lookupPlayer_map _ (upsert_update_addr addr s t now) ps a]
    cases h : lookupPlayer ps a with
    | none => rfl
    | some p =>
      have hpa := lookupPlayer_addr ps a p h
      simp only [Option.map_some']
      rw [if_neg (by simp [hpa]; exact ha)]
  · rw [if_neg hany]
    cases h : lookupPlayer ps a with
    | none =>
      rw [lookupPlayer_append_of_none ps _ a h]
      have : ((⟨addr, s, t, 1, false, now⟩ : Player).userAddress == a) = false := by
        simp
        exact fun hc => ha hc.symm
      simp [List.find?_cons, this, h]
    | some p => exact lookupPlayer_append_left ps _ a p h

end BoredTopia

namespace BoredTopia

/-! ## Bonus-write lemmas -/

theorem addScore_update_addr (addr : String) (b : Int) :
    ∀ p : Player,
      ((if p.userAddress == addr then
          { p with score := p.score + b, bonusReceived := true }
        else p) : Player).userAddress = p.userAddress := by
  intro p
  by_cases hq : p.userAddress == addr <;> simp [hq]

theorem addScore_lookup (ps : List Player) (addr : String) (b : Int) (a : String) :
    lookupPlayer (addScore ps addr b) a =
      (lookupPlayer ps a).map (fun p =>
        if p.userAddress == addr then
          { p with score := p.score + b, bonusReceived := true }
        else p) := by
  unfold addScore
  exact lookupPlayer_map _ (addScore_update_addr addr b) ps a

theorem addScore_hit (ps : List Player) (addr : String) (b : Int) (p : Player)
    (h : lookupPlayer ps addr = some p) :
    lookupPlayer (addScore ps addr b) addr =
      some { p with score := p.score + b, bonusReceived := true } := by
  rw [addScore_lookup, h]
  simp only [Option.map_some']
  rw [if_pos (by simp [lookupPlayer_addr ps addr p h])]

theorem addScore_miss (ps : List Player) (addr : String) (b : Int) (a : String)
    (ha : a ≠ addr) :
    lookupPlayer (addScore ps addr b) a = lookupPlayer ps a := by
  rw [addScore_lookup]
  cases h : lookupPlayer ps a with
  | none => rfl
  | some p =>
    simp only [Option.map_some']
    rw [if_neg (by simp [lookupPlayer_addr ps a p h]; exact ha)]

theorem markApplied_kills (invs : List Invitation) (invitee : String) :
    findUnappliedInvite (markApplied invs invitee) invitee = none := by
  unfold findUnappliedInvite markApplied
  rw [List.find?_eq_none]
  intro i hi
  rw [List.mem_map] at hi
  obtain ⟨j, _, hj⟩ := hi
  subst hj
  by_cases h : j.inviteeAddress == invitee <;> simp [h]

end BoredTopia

namespace BoredTopia

/-! ## The shape of a valid `/submit-score` call -/

theorem submitScore_no_invite (db : DB) (a : String) (s : ScoreInput) (tb : Option Int)
    (now : Nat) (ha : a ≠ "") (hv : (s.jsIsNaN || s.jsLtZero) = false)
    (hinv : findUnappliedInvite db.invitations a = none) :
    submitScore db a s tb now =
      (200, { db with players := upsertPlayer db.players a s.jsOrZero (tb.getD 0) now }) := by
  unfold submitScore
  rw [if_neg (by simp [ha]), if_neg (by simp [hv])]
  simp [hinv]

theorem submitScore_with_invite (db : DB) (a : String) (s : ScoreInput) (tb : Option Int)
    (now : Nat) (inv : Invitation) (ha : a ≠ "") (hv : (s.jsIsNaN || s.jsLtZero) = false)
    (hinv : findUnappliedInvite db.invitations a = some inv) :
    submitScore db a s tb now =
      (200, awardBonus
              { db with players := upsertPlayer db.players a s.jsOrZero (tb.getD 0) now }
              inv.inviterAddress a s.jsFloorHalf) := by
  unfold submitScore
  rw [if_neg (by simp [ha]), if_neg (by simp [hv])]
  simp [hinv]

end BoredTopia

namespace BoredTopia

/-- C4: `submitScore` upsert semantics.  For every existing player, a
successful submission stores `max(existing score, submitted score)`,
overwrites `tokenBalance` with the submitted value (last-write-wins),
increments `gamesPlayed` by exactly 1, and sets the timestamp to now; for
every player not yet present it inserts a row with `gamesPlayed = 1`.
(Stated for the upsert itself, and for a full `/submit-score` call whenever
no unapplied invitation adds a referral bonus afterwards.) -/
theorem submit_score_upsert_semantics :
    (∀ (ps : List Player) (addr : String) (s t : Int) (now : Nat) (p : Player),
        lookupPlayer ps addr = some p →
        lookupPlayer (upsertPlayer ps addr s t now) addr =
          some { p with
                  score := max p.score s,
                  tokenBalance := t,
                  gamesPlayed := p.gamesPlayed + 1,
                  timestamp := now })
    ∧ (∀ (ps : List Player) (addr : String) (s t : Int) (now : Nat),
        lookupPlayer ps addr = none →
        upsertPlayer ps addr s t now =
          ps ++ [{ userAddress := addr, score := s, tokenBalance := t,
                   gamesPlayed := 1, bonusReceived := false, timestamp := now }])
    ∧ (∀ (db : DB) (a : String) (n t : Int) (now : Nat),
        a ≠ "" → 0 ≤ n →
        findUnappliedInvite db.invitations a = none →
        submitScore db a (ScoreInput.num n) (some t) now =
          (200, { db with players := upsertPlayer db.players a n t now })) := by
  refine ⟨upsertPlayer_existing, upsertPlayer_new, ?_⟩
  intro db a n t now ha hn hinv
  have hv : ((ScoreInput.num n).jsIsNaN || (ScoreInput.num n).jsLtZero) = false := by
    simp [ScoreInput.jsIsNaN, ScoreInput.jsLtZero]
    omega
  exact submitScore_no_invite db a (ScoreInput.num n) (some t) now ha hv hinv

/-- Witness for C4 at concrete inputs: an existing row (score 5) updated by a
submission of 3 keeps score 5 while tokenBalance becomes 9 and gamesPlayed
3; a fresh address is inserted with gamesPlayed 1; a full valid call equals
the pure upsert when no invitation is pending. -/
theorem submit_score_upsert_semantics_witness :
    lookupPlayer [⟨"a", 5, 1, 2, false, 0⟩] "a" = some ⟨"a", 5, 1, 2, false, 0⟩ ∧
    lookupPlayer (upsertPlayer [⟨"a", 5, 1, 2, false, 0⟩] "a" 3 9 7) "a" =
      some ⟨"a", 5, 9, 3, false, 7⟩ ∧
    upsertPlayer [] "c" 1 2 3 = [⟨"c", 1, 2, 1, false, 3⟩] ∧
    submitScore emptyDB "b" (ScoreInput.num 4) (some 2) 1 =
      (200, { emptyDB with players := upsertPlayer emptyDB.players "b" 4 2 1 }) :=
  ⟨by decide,
   submit_score_upsert_semantics.1 [⟨"a", 5, 1, 2, false, 0⟩] "a" 3 9 7
     ⟨"a", 5, 1, 2, false, 0⟩ (by decide),
   submit_score_upsert_semantics.2.1 [] "c" 1 2 3 (by decide),
   submit_score_upsert_semantics.2.2 emptyDB "b" 4 2 1 (by decide) (by decide) (by decide)⟩

end BoredTopia

namespace BoredTopia

/-! ## Monotonicity lemmas -/

theorem upsertPlayer_mono (ps : List Player) (addr : String) (s t : Int) (now : Nat)
    (a : String) (p : Player) (h : lookupPlayer ps a = some p) :
    ∃ p', lookupPlayer (upsertPlayer ps addr s t now) a = some p' ∧ p.score ≤ p'.score := by
  by_cases ha : a = addr
  · subst ha
    exact ⟨_, upsertPlayer_existing ps a s t now p h, le_max_left _ _⟩
  · exact ⟨p, by rw [upsertPlayer_other ps addr s t now a ha]; exact h, le_refl _⟩

theorem addScore_mono (ps : List Player) (addr : String) (b : Int) (hb : 0 ≤ b)
    (a : String) (p : Player) (h : lookupPlayer ps a = some p) :
    ∃ p', lookupPlayer (addScore ps addr b) a = some p' ∧ p.score ≤ p'.score := by
  by_cases ha : a = addr
  · subst ha
    exact ⟨_, addScore_hit ps a b p h, by simp; linarith⟩
  · exact ⟨p, by rw [addScore_miss ps addr b a ha]; exact h, le_refl _⟩

theorem awardBonus_mono (db : DB) (inviter invitee : String) (b : Int) (hb : 0 ≤ b)
    (a : String) (p : Player) (h : lookupPlayer db.players a = some p) :
    ∃ p', lookupPlayer (awardBonus db inviter invitee b).players a = some p' ∧
          p.score ≤ p'.score := by
  obtain ⟨p1, h1, hle1⟩ := addScore_mono db.players inviter b hb a p h
  obtain ⟨p2, h2, hle2⟩ := addScore_mono _ invitee b hb a p1 h1
  exact ⟨p2, h2, le_trans hle1 hle2⟩

theorem valid_score_bonus_nonneg (s : ScoreInput)
    (hv : (s.jsIsNaN || s.jsLtZero) = false) : 0 ≤ s.jsFloorHalf := by
  cases s with
  | num n =>
    simp [ScoreInput.jsIsNaN, ScoreInput.jsLtZero] at hv
    exact Int.fdiv_nonneg (by omega) (by norm_num)
  | jsNull => simp [ScoreInput.jsFloorHalf]
  | undef => simp [ScoreInput.jsIsNaN] at hv

theorem submitScore_mono (db : DB) (a : String) (s : ScoreInput) (tb : Option Int)
    (now : Nat) (addr : String) (p : Player) (h : lookupPlayer db.players addr = some p) :
    ∃ p', lookupPlayer (submitScore db a s tb now).2.players addr = some p' ∧
          p.score ≤ p'.score := by
  by_cases ha : a = ""
  · subst ha
    exact ⟨p, by unfold submitScore; rw [if_pos (by simp)]; exact h, le_refl _⟩
  by_cases hv : (s.jsIsNaN || s.jsLtZero) = true
  · refine ⟨p, ?_, le_refl _⟩
    unfold submitScore
    rw [if_neg (by simp [ha]), if_pos hv]
    exact h
  have hv' : (s.jsIsNaN || s.jsLtZero) = false := by simpa using hv
  have hb : 0 ≤ s.jsFloorHalf := valid_score_bonus_nonneg s hv'
  cases hinv : findUnappliedInvite db.invitations a with
  | none =>
    rw [submitScore_no_invite db a s tb now ha hv' hinv]
    exact upsertPlayer_mono db.players a s.jsOrZero (tb.getD 0) now addr p h
  | some inv =>
    rw [submitScore_with_invite db a s tb now inv ha hv' hinv]
    obtain ⟨p1, h1, hle1⟩ := upsertPlayer_mono db.players a s.jsOrZero (tb.getD 0) now addr p h
    obtain ⟨p2, h2, hle2⟩ :=
      awardBonus_mono { db with players := upsertPlayer db.players a s.jsOrZero (tb.getD 0) now }
        inv.inviterAddress a s.jsFloorHalf hb addr p1 h1
    exact ⟨p2, h2, le_trans hle1 hle2⟩

theorem applyBonus_mono (db : DB) (a : String) (s : ScoreInput) (hb : 0 ≤ s.jsFloorHalf)
    (addr : String) (p : Player) (h : lookupPlayer db.players addr = some p) :
    ∃ p', lookupPlayer (applyBonus db a s).2.players addr = some p' ∧
          p.score ≤ p'.score := by
  unfold applyBonus
  by_cases hc : (a == "" || s.jsFalsy) = true
  · rw [if_pos hc]
    exact ⟨p, h, le_refl _⟩
  · rw [if_neg hc]
    cases hinv : findUnappliedInvite db.invitations a with
    | none => exact ⟨p, h, le_refl _⟩
    | some inv => exact awardBonus_mono db inv.inviterAddress a s.jsFloorHalf hb addr p h

end BoredTopia

namespace BoredTopia

/-- A database with an inviter, an invitee, and one unapplied invitation;
used to exercise the bonus endpoints at concrete inputs. -/
def invDB : DB :=
  ⟨[⟨"inv", 10, 0, 1, false, 0⟩, ⟨"bob", 10, 0, 1, false, 0⟩],
   [], [], [⟨"inv", "bob", false⟩], 1⟩

/-- C7 counterexample: the claim "no operation ever lowers a player's score"
is false.  `/apply-bonus` only rejects a *falsy* score, so a negative score
passes its check; with an unapplied invitation for `bob`, a call with score
`-4` computes `bonus = Math.floor(-4 * 0.5) = -2` and lowers both players'
stored scores from 10 to 8. -/
theorem apply_bonus_negative_lowers_score :
    lookupPlayer invDB.players "bob" = some ⟨"bob", 10, 0, 1, false, 0⟩ ∧
    (applyBonus invDB "bob" (ScoreInput.num (-4))).2.players =
      [⟨"inv", 8, 0, 1, true, 0⟩, ⟨"bob", 8, 0, 1, true, 0⟩] ∧
    (8 : Int) < 10 :=
  ⟨by decide, by decide, by decide⟩

/-- C7 (amended): the stored best score is monotonically non-decreasing under
any sequence of score submissions, and under bonus applications whose
computed bonus `floor(score / 2)` is non-negative (equivalently, a
non-negative submitted score); a bonus application with a negative score
can lower scores. -/
theorem score_monotone_amended :
    (∀ (db : DB) (a : String) (s : ScoreInput) (tb : Option Int) (now : Nat)
       (addr : String) (p : Player),
        lookupPlayer db.players addr = some p →
        ∃ p', lookupPlayer (submitScore db a s tb now).2.players addr = some p' ∧
              p.score ≤ p'.score)
    ∧ (∀ (db : DB) (a : String) (s : ScoreInput) (addr : String) (p : Player),
        0 ≤ s.jsFloorHalf →
        lookupPlayer db.players addr = some p →
        ∃ p', lookupPlayer (applyBonus db a s).2.players addr = some p' ∧
              p.score ≤ p'.score) :=
  ⟨fun db a s tb now addr p h => submitScore_mono db a s tb now addr p h,
   fun db a s addr p hb h => applyBonus_mono db a s hb addr p h⟩

/-- Witness for the amended C7 at concrete inputs: a submission of score 6 by
`bob` (who holds an unapplied invitation in `invDB`) and an `/apply-bonus`
call with score 6 both keep every stored score at least as large as before. -/
theorem score_monotone_amended_witness :
    lookupPlayer invDB.players "bob" = some ⟨"bob", 10, 0, 1, false, 0⟩ ∧
    (∃ p', lookupPlayer (submitScore invDB "bob" (ScoreInput.num 6) (some 0) 1).2.players
            "bob" = some p' ∧ (10 : Int) ≤ p'.score) ∧
    (∃ p', lookupPlayer (applyBonus invDB "bob" (ScoreInput.num 6)).2.players
            "bob" = some p' ∧ (10 : Int) ≤ p'.score) :=
  ⟨by decide,
   score_monotone_amended.1 invDB "bob" (ScoreInput.num 6) (some 0) 1 "bob"
     ⟨"bob", 10, 0, 1, false, 0⟩ (by decide),
   score_monotone_amended.2 invDB "bob" (ScoreInput.num 6) "bob"
     ⟨"bob", 10, 0, 1, false, 0⟩ (by decide) (by decide)⟩

end BoredTopia

namespace BoredTopia

/-- C6: `/submit-score` validation rejects a missing address and a negative
numeric score with HTTP 400 and no store change, but its guard
`isNaN(score) || score < 0` lets a `null` score through (`isNaN(null)` is
false because `Number(null) = 0`), and line 147's `score || 0` then silently
coerces it to `0`: the call succeeds with HTTP 200 and inserts a row with
score 0, contradicting "a malformed score is never silently coerced to a
default". -/
theorem submit_score_null_accepted_and_coerced :
    submitScore emptyDB "" (ScoreInput.num 3) (some 0) 0 = (400, emptyDB) ∧
    submitScore emptyDB "a" (ScoreInput.num (-5)) (some 0) 0 = (400, emptyDB) ∧
    (ScoreInput.jsNull.jsIsNaN || ScoreInput.jsNull.jsLtZero) = false ∧
    submitScore emptyDB "a" ScoreInput.jsNull (some 7) 5 =
      (200, { emptyDB with players := [⟨"a", 0, 7, 1, false, 5⟩] }) :=
  ⟨by decide, by decide, by decide, by decide⟩

/-- C8 counterexample: `/assign-room` performs no address validation.  On an
empty database, a call with the empty address returns HTTP 200 (never 400),
creates room 1, and inserts a membership for the empty address — the store
is touched, not protected by any boundary check. -/
theorem assign_room_empty_address_accepted :
    assignRoom emptyDB "" 7 =
      ⟨200,
       { emptyDB with
          rooms := [⟨1, "Room 7", "available"⟩],
          nextRoomId := 2,
          players_in_room := [⟨"", 1⟩] },
       1⟩ :=
  by decide

/-- C8 (amended): `/assign-room` has no validation branch at all: for every
database, address (empty or not) and timestamp, the handler returns HTTP
200 (store errors aside); an empty or missing address is processed like any
other address. -/
theorem assign_room_no_validation (db : DB) (a : String) (now : Nat) :
    (assignRoom db a now).status = 200 := by
  unfold assignRoom
  split
  · rfl
  · split <;> rfl

/-- C10: `/apply-bonus` rejects every falsy `score` (0, `null`, absent) with
HTTP 400 and an unchanged database — even when a valid unapplied invitation
exists for the invitee — so the explicit compensating path can never be
triggered with score 0. -/
theorem apply_bonus_rejects_falsy (db : DB) (a : String) (s : ScoreInput)
    (h : s.jsFalsy = true) : applyBonus db a s = (400, db) := by
  unfold applyBonus
  rw [if_pos (by simp [h])]

/-- Witness for C10: in `invDB` the invitee `bob` has a valid unapplied
invitation, yet `/apply-bonus` with score 0 returns 400 and changes no row. -/
theorem apply_bonus_rejects_falsy_witness :
    (ScoreInput.num 0).jsFalsy = true ∧
    findUnappliedInvite invDB.invitations "bob" = some ⟨"inv", "bob", false⟩ ∧
    applyBonus invDB "bob" (ScoreInput.num 0) = (400, invDB) :=
  ⟨by decide, by decide,
   apply_bonus_rejects_falsy invDB "bob" (ScoreInput.num 0) (by decide)⟩

end BoredTopia

namespace BoredTopia

/-- Every invitation row carries the fixed inviter constant that
`/submit-invite` hardcodes. -/
@[reducible] def constInviter (db : DB) : Prop :=
  ∀ i ∈ db.invitations, i.inviterAddress = "sample-inviter-address"

/-- C9: `/submit-invite` stores every invitation with
`inviterAddress = 'sample-inviter-address'` (the request body supplies only
the invitee code), this shape is preserved by further submissions, and as a
consequence `/invites-count` returns the total number of invitations for
that constant address and 0 for every other address. -/
theorem submit_invite_constant_inviter :
    (∀ (db : DB) (code : String),
        code ≠ "" →
        db.invitations.any (fun i => i.inviteeAddress == code) = false →
        submitInvite db code =
          (200, { db with
            invitations := db.invitations ++ [⟨"sample-inviter-address", code, false⟩] }))
    ∧ (∀ (db : DB) (code : String),
        constInviter db → constInviter (submitInvite db code).2)
    ∧ (∀ db : DB, constInviter db →
        inviteCount db "sample-inviter-address" = db.invitations.length)
    ∧ (∀ (db : DB) (a : String), constInviter db →
        a ≠ "sample-inviter-address" → inviteCount db a = 0) := by
  refine ⟨?_, ?_, ?_, ?_⟩
  · intro db code hc hdup
    unfold submitInvite
    rw [if_neg (by simp [hc]), if_neg (by simp [hdup])]
  · intro db code h
    unfold submitInvite
    by_cases hc : (code == "") = true
    · rw [if_pos hc]; exact h
    rw [if_neg hc]
    by_cases hdup : db.invitations.any (fun i => i.inviteeAddress == code) = true
    · rw [if_pos hdup]; exact h
    rw [if_neg hdup]
    intro i hi
    rcases List.mem_append.1 hi with hmem | hmem
    · exact h i hmem
    · rw [List.mem_singleton.1 hmem]
  · intro db h
    unfold inviteCount
    rw [List.filter_eq_self.2 (fun i hi => by simp [h i hi])]
  · intro db a h ha
    unfold inviteCount
    rw [List.filter_eq_nil_iff.2 (fun i hi => by simp [h i hi]; exact fun hc => ha hc.symm)]
    rfl

/-- Witness for C9 at concrete inputs: recording the code `"x"` on the empty
database stores the constant inviter; the count for the constant address is
then 1 and the count for `"inv"` is 0. -/
theorem submit_invite_constant_inviter_witness :
    submitInvite emptyDB "x" =
      (200, { emptyDB with
        invitations := [⟨"sample-inviter-address", "x", false⟩] }) ∧
    inviteCount (submitInvite emptyDB "x").2 "sample-inviter-address" = 1 ∧
    inviteCount (submitInvite emptyDB "x").2 "inv" = 0 :=
  ⟨submit_invite_constant_inviter.1 emptyDB "x" (by decide) (by decide),
   submit_invite_constant_inviter.2.2.1 (submitInvite emptyDB "x").2 (by decide),
   submit_invite_constant_inviter.2.2.2 (submitInvite emptyDB "x").2 "inv" (by decide)
     (by decide)⟩

end BoredTopia

namespace BoredTopia

/-! ## Room assignment -/

theorem assignRoom_existing (db : DB) (a : String) (now : Nat) (m : RoomMembership)
    (h : db.players_in_room.find? (fun x => x.userAddress == a) = some m) :
    assignRoom db a now = ⟨200, db, m.room_id⟩ := by
  unfold assignRoom
  rw [h]

theorem assignRoom_fresh_some (db : DB) (a : String) (now : Nat) (r : Room)
    (h : db.players_in_room.find? (fun x => x.userAddress == a) = none)
    (hr : availableRoom db = some r) :
    assignRoom db a now =
      ⟨200, { db with players_in_room := db.players_in_room ++ [⟨a, r.id⟩] }, r.id⟩ := by
  unfold assignRoom
  rw [h, hr]

theorem assignRoom_fresh_none (db : DB) (a : String) (now : Nat)
    (h : db.players_in_room.find? (fun x => x.userAddress == a) = none)
    (hr : availableRoom db = none) :
    assignRoom db a now =
      ⟨200,
       { db with
          rooms := db.rooms ++ [⟨db.nextRoomId, "Room " ++ toString now, "available"⟩],
          nextRoomId := db.nextRoomId + 1,
          players_in_room := db.players_in_room ++ [⟨a, db.nextRoomId⟩] },
       db.nextRoomId⟩ := by
  unfold assignRoom
  rw [h, hr]

theorem membership_find_after_insert (l : List RoomMembership) (a : String) (rid : Nat)
    (h : l.find? (fun x => x.userAddress == a) = none) :
    (l ++ [(⟨a, rid⟩ : RoomMembership)]).find? (fun x => x.userAddress == a) =
      some (⟨a, rid⟩ : RoomMembership) := by
  rw [find?_append_of_none _ l _ h]
  simp [List.find?_cons]

/-- At most one `players_in_room` row per player: all rows carry pairwise
distinct addresses. -/
@[reducible] def uniqueMembership (db : DB) : Prop :=
  db.players_in_room.Pairwise (fun m1 m2 => m1.userAddress ≠ m2.userAddress)

theorem uniqueMembership_insert (l : List RoomMembership) (a : String) (rid : Nat)
    (h : l.find? (fun x => x.userAddress == a) = none)
    (hu : l.Pairwise (fun m1 m2 => m1.userAddress ≠ m2.userAddress)) :
    (l ++ [(⟨a, rid⟩ : RoomMembership)]).Pairwise
      (fun m1 m2 => m1.userAddress ≠ m2.userAddress) := by
  rw [List.pairwise_append]
  refine ⟨hu, List.pairwise_singleton _ _, ?_⟩
  intro x hx y hy
  have hy' : y = (⟨a, rid⟩ : RoomMembership) := List.mem_singleton.1 hy
  subst hy'
  intro hxy
  have := List.find?_eq_none.1 h x hx
  simp [hxy] at this

end BoredTopia

namespace BoredTopia

/-- C2: `assignRoom` is idempotent per player.  A player that already has a
membership gets the existing room id back with no store change; calling
`assignRoom` again right after any `assignRoom` call returns the same room
id and changes nothing; and assignment preserves the at-most-one-membership
invariant. -/
theorem assign_room_idempotent :
    (∀ (db : DB) (a : String) (now : Nat) (m : RoomMembership),
        db.players_in_room.find? (fun x => x.userAddress == a) = some m →
        assignRoom db a now = ⟨200, db, m.room_id⟩)
    ∧ (∀ (db : DB) (a : String) (now now' : Nat),
        assignRoom (assignRoom db a now).db a now' =
          ⟨200, (assignRoom db a now).db, (assignRoom db a now).roomId⟩)
    ∧ (∀ (db : DB) (a : String) (now : Nat),
        uniqueMembership db → uniqueMembership (assignRoom db a now).db) := by
  refine ⟨assignRoom_existing, ?_, ?_⟩
  · intro db a now now'
    cases hm : db.players_in_room.find? (fun x => x.userAddress == a) with
    | some m =>
      rw [assignRoom_existing db a now m hm]
      exact assignRoom_existing db a now' m hm
    | none =>
      cases hr : availableRoom db with
      | some r =>
        rw [assignRoom_fresh_some db a now r hm hr]
        exact assignRoom_existing _ a now' ⟨a, r.id⟩
          (membership_find_after_insert db.players_in_room a r.id hm)
      | none =>
        rw [assignRoom_fresh_none db a now hm hr]
        exact assignRoom_existing _ a now' ⟨a, db.nextRoomId⟩
          (membership_find_after_insert db.players_in_room a db.nextRoomId hm)
  · intro db a now hu
    cases hm : db.players_in_room.find? (fun x => x.userAddress == a) with
    | some m =>
      rw [assignRoom_existing db a now m hm]
      exact hu
    | none =>
      cases hr : availableRoom db with
      | some r =>
        rw [assignRoom_fresh_some db a now r hm hr]
        exact uniqueMembership_insert db.players_in_room a r.id hm hu
      | none =>
        rw [assignRoom_fresh_none db a now hm hr]
        exact uniqueMembership_insert db.players_in_room a db.nextRoomId hm hu

/-- Witness for C2 at concrete inputs: with `alice` already in room 3,
`assignRoom` returns room 3 and leaves the database untouched; the repeated
call after a fresh assignment of `bob` to the empty database returns the
same room; uniqueness is preserved. -/
theorem assign_room_idempotent_witness :
    (let db : DB := ⟨[], [⟨3, "r", "available"⟩], [⟨"alice", 3⟩], [], 4⟩
     db.players_in_room.find? (fun x => x.userAddress == "alice") = some ⟨"alice", 3⟩ ∧
     assignRoom db "alice" 9 = ⟨200, db, 3⟩) ∧
    assignRoom (assignRoom emptyDB "bob" 1).db "bob" 2 =
      ⟨200, (assignRoom emptyDB "bob" 1).db, (assignRoom emptyDB "bob" 1).roomId⟩ ∧
    (uniqueMembership emptyDB ∧ uniqueMembership (assignRoom emptyDB "bob" 1).db) :=
  ⟨⟨by decide,
    assign_room_idempotent.1 ⟨[], [⟨3, "r", "available"⟩], [⟨"alice", 3⟩], [], 4⟩
      "alice" 9 ⟨"alice", 3⟩ (by decide)⟩,
   assign_room_idempotent.2.1 emptyDB "bob" 1 2,
   ⟨by decide, assign_room_idempotent.2.2 emptyDB "bob" 1 (by decide)⟩⟩

end BoredTopia

namespace BoredTopia

theorem find?_min_of_sorted (rooms : List Room) (p : Room → Bool) (r : Room)
    (hs : rooms.Pairwise (fun r1 r2 => r1.id < r2.id))
    (h : rooms.find? p = some r) :
    ∀ r' ∈ rooms, p r' = true → r.id ≤ r'.id := by
  induction rooms with
  | nil => simp at h
  | cons x xs ih =>
    rw [List.pairwise_cons] at hs
    simp only [List.find?_cons] at h
    cases hx : p x with
    | true =>
      rw [hx] at h
      simp only [Option.some.injEq] at h
      subst h
      intro r' hr' _
      rcases List.mem_cons.1 hr' with h1 | h1
      · rw [h1]
      · exact le_of_lt (hs.1 r' h1)
    | false =>
      rw [hx] at h
      intro r' hr' hp
      rcases List.mem_cons.1 hr' with h1 | h1
      · rw [h1] at hp
        rw [hp] at hx
        exact absurd hx (by simp)
      · exact ih hs.2 h r' h1 hp

theorem availableRoom_mem (db : DB) (r : Room) (h : availableRoom db = some r) :
    r ∈ db.rooms ∧ occupantCount db r.id < 48 := by
  have h' : db.rooms.find?
      (fun x => x.status == "available" && decide (occupantCount db x.id < 48)) = some r := h
  refine ⟨List.mem_of_find?_eq_some h', ?_⟩
  have := List.find?_some h'
  simp only [Bool.and_eq_true, decide_eq_true_eq] at this
  exact this.2

theorem availableRoom_none_full (db : DB) (h : availableRoom db = none)
    (hst : ∀ r ∈ db.rooms, r.status = "available") :
    ∀ r ∈ db.rooms, 48 ≤ occupantCount db r.id := by
  intro r hr
  have h' : db.rooms.find?
      (fun x => x.status == "available" && decide (occupantCount db x.id < 48)) = none := h
  have := List.find?_eq_none.1 h' r hr
  simp [hst r hr] at this
  omega

end BoredTopia

namespace BoredTopia

/-- C3: first-fit room allocation.  For a player with no membership, when an
open room exists (occupancy `< 48`, status "available") the handler assigns
the open room with the lowest id (rooms are scanned in increasing-id order)
and inserts only the membership; it creates a new room exactly when every
existing room is at capacity, and then assigns the player to it. -/
theorem assign_room_first_fit (db : DB) (a : String) (now : Nat)
    (hmem : db.players_in_room.find? (fun x => x.userAddress == a) = none)
    (hsort : db.rooms.Pairwise (fun r1 r2 => r1.id < r2.id))
    (hst : ∀ r ∈ db.rooms, r.status = "available") :
    (∀ r : Room, availableRoom db = some r →
        r ∈ db.rooms ∧ occupantCount db r.id < 48 ∧
        (∀ r' ∈ db.rooms, occupantCount db r'.id < 48 → r.id ≤ r'.id) ∧
        assignRoom db a now =
          ⟨200, { db with players_in_room := db.players_in_room ++ [⟨a, r.id⟩] }, r.id⟩)
    ∧ (availableRoom db = none →
        (∀ r' ∈ db.rooms, 48 ≤ occupantCount db r'.id) ∧
        assignRoom db a now =
          ⟨200,
           { db with
              rooms := db.rooms ++ [⟨db.nextRoomId, "Room " ++ toString now, "available"⟩],
              nextRoomId := db.nextRoomId + 1,
              players_in_room := db.players_in_room ++ [⟨a, db.nextRoomId⟩] },
           db.nextRoomId⟩) := by
  constructor
  · intro r hr
    obtain ⟨hrm, hocc⟩ := availableRoom_mem db r hr
    refine ⟨hrm, hocc, ?_, assignRoom_fresh_some db a now r hmem hr⟩
    intro r' hr' hocc'
    refine find?_min_of_sorted db.rooms _ r hsort hr r' hr' ?_
    simp [hst r' hr', hocc']
  · intro hr
    exact ⟨availableRoom_none_full db hr hst, assignRoom_fresh_none db a now hmem hr⟩

/-- Room 1 filled to capacity (48 members). -/
def fullRoomMembers : List RoomMembership :=
  (List.range 48).map (fun i => ⟨"f" ++ toString i, 1⟩)

/-- Room 2 at 47 of 48. -/
def nearlyFullMembers : List RoomMembership :=
  (List.range 47).map (fun i => ⟨"g" ++ toString i, 2⟩)

/-- Two rooms: room 1 full (48/48), room 2 open (47/48). -/
def capacityDB : DB :=
  ⟨[], [⟨1, "r1", "available"⟩, ⟨2, "r2", "available"⟩],
   fullRoomMembers ++ nearlyFullMembers, [], 3⟩

/-- Witness for C3 at a concrete input (the spec's §8 example scaled to the
code's capacity 48): with room 1 full and room 2 at 47/48, the next
assignment goes to room 2. -/
theorem assign_room_first_fit_witness :
    capacityDB.players_in_room.find? (fun x => x.userAddress == "alice") = none ∧
    occupantCount capacityDB 1 = 48 ∧
    occupantCount capacityDB 2 = 47 ∧
    (assignRoom capacityDB "alice" 0).roomId = 2 ∧
    (assignRoom capacityDB "alice" 0).db.players_in_room =
      capacityDB.players_in_room ++ [⟨"alice", 2⟩] :=
  ⟨by decide, by decide, by decide,
   by
     have h := (assign_room_first_fit capacityDB "alice" 0 (by decide) (by decide)
       (by decide)).1 ⟨2, "r2", "available"⟩ (by decide)
     rw [h.2.2.2],
   by
     have h := (assign_room_first_fit capacityDB "alice" 0 (by decide) (by decide)
       (by decide)).1 ⟨2, "r2", "available"⟩ (by decide)
     rw [h.2.2.2]⟩

end BoredTopia

namespace BoredTopia

/-! ## The shape of an `/apply-bonus` call -/

theorem applyBonus_with_invite (db : DB) (a : String) (s : ScoreInput) (inv : Invitation)
    (ha : a ≠ "") (hf : s.jsFalsy = false)
    (hinv : findUnappliedInvite db.invitations a = some inv) :
    applyBonus db a s = (200, awardBonus db inv.inviterAddress a s.jsFloorHalf) := by
  unfold applyBonus
  rw [if_neg (by simp [ha, hf])]
  simp [hinv]

theorem applyBonus_no_invite (db : DB) (a : String) (s : ScoreInput)
    (hinv : findUnappliedInvite db.invitations a = none) :
    applyBonus db a s = (400, db) := by
  unfold applyBonus
  by_cases hc : (a == "" || s.jsFalsy) = true
  · rw [if_pos hc]
  · rw [if_neg hc]
    simp [hinv]

theorem awardBonus_lookups (db : DB) (inviter invitee : String) (b : Int)
    (hne : inviter ≠ invitee) (q p : Player)
    (hq : lookupPlayer db.players inviter = some q)
    (hp : lookupPlayer db.players invitee = some p) :
    lookupPlayer (awardBonus db inviter invitee b).players inviter =
      some { q with score := q.score + b, bonusReceived := true } ∧
    lookupPlayer (awardBonus db inviter invitee b).players invitee =
      some { p with score := p.score + b, bonusReceived := true } ∧
    findUnappliedInvite (awardBonus db inviter invitee b).invitations invitee = none := by
  refine ⟨?_, ?_, markApplied_kills db.invitations invitee⟩
  · have h1 := addScore_hit db.players inviter b q hq
    have h2 := addScore_miss (addScore db.players inviter b) invitee b inviter hne
    show lookupPlayer (addScore (addScore db.players inviter b) invitee b) inviter = _
    rw [h2, h1]
  · have h1 := addScore_miss db.players inviter b invitee (fun hc => hne hc.symm)
    have h2 := addScore_hit (addScore db.players inviter b) invitee b p (by rw [h1]; exact hp)
    exact h2

end BoredTopia

namespace BoredTopia

/-- C1: the referral bonus is applied at most once per invitation.  When the
invitee of an unapplied invitation triggers the bonus — implicitly through
`/submit-score` or explicitly through `/apply-bonus` — both the inviter's
and the invitee's stored scores increase by `floor(score * 0.5)` and the
invitation's `bonusApplied` flag becomes true; afterwards no unapplied
invitation remains for that invitee, so a subsequent `/submit-score`
performs only the plain upsert and a subsequent `/apply-bonus` returns 400
with the database unchanged. -/
theorem referral_bonus_exactly_once :
    (∀ (db : DB) (a : String) (n tb : Int) (now : Nat) (inv : Invitation) (p q : Player),
        a ≠ "" → 0 ≤ n →
        findUnappliedInvite db.invitations a = some inv →
        inv.inviterAddress ≠ a →
        lookupPlayer (upsertPlayer db.players a n tb now) inv.inviterAddress = some q →
        lookupPlayer (upsertPlayer db.players a n tb now) a = some p →
        lookupPlayer (submitScore db a (ScoreInput.num n) (some tb) now).2.players
            inv.inviterAddress =
          some { q with score := q.score + Int.fdiv n 2, bonusReceived := true } ∧
        lookupPlayer (submitScore db a (ScoreInput.num n) (some tb) now).2.players a =
          some { p with score := p.score + Int.fdiv n 2, bonusReceived := true } ∧
        findUnappliedInvite (submitScore db a (ScoreInput.num n) (some tb) now).2.invitations
            a = none)
    ∧ (∀ (db : DB) (a : String) (n : Int) (inv : Invitation) (p q : Player),
        a ≠ "" → n ≠ 0 →
        findUnappliedInvite db.invitations a = some inv →
        inv.inviterAddress ≠ a →
        lookupPlayer db.players inv.inviterAddress = some q →
        lookupPlayer db.players a = some p →
        lookupPlayer (applyBonus db a (ScoreInput.num n)).2.players inv.inviterAddress =
          some { q with score := q.score + Int.fdiv n 2, bonusReceived := true } ∧
        lookupPlayer (applyBonus db a (ScoreInput.num n)).2.players a =
          some { p with score := p.score + Int.fdiv n 2, bonusReceived := true } ∧
        findUnappliedInvite (applyBonus db a (ScoreInput.num n)).2.invitations a = none)
    ∧ (∀ (db : DB) (a : String) (n tb : Int) (now : Nat),
        a ≠ "" → 0 ≤ n →
        findUnappliedInvite db.invitations a = none →
        submitScore db a (ScoreInput.num n) (some tb) now =
          (200, { db with players := upsertPlayer db.players a n tb now }))
    ∧ (∀ (db : DB) (a : String) (s : ScoreInput),
        findUnappliedInvite db.invitations a = none →
        applyBonus db a s = (400, db)) := by
  refine ⟨?_, ?_, ?_, fun db a s hinv => applyBonus_no_invite db a s hinv⟩
  · intro db a n tb now inv p q ha hn hinv hne hq hp
    have hv : ((ScoreInput.num n).jsIsNaN || (ScoreInput.num n).jsLtZero) = false := by
      simp [ScoreInput.jsIsNaN, ScoreInput.jsLtZero]
      omega
    rw [submitScore_with_invite db a (ScoreInput.num n) (some tb) now inv ha hv hinv]
    exact awardBonus_lookups { db with players := upsertPlayer db.players a n tb now }
      inv.inviterAddress a (Int.fdiv n 2) hne q p hq hp
  · intro db a n inv p q ha hn hinv hne hq hp
    have hf : (ScoreInput.num n).jsFalsy = false := by simp [ScoreInput.jsFalsy, hn]
    rw [applyBonus_with_invite db a (ScoreInput.num n) inv ha hf hinv]
    exact awardBonus_lookups db inv.inviterAddress a (Int.fdiv n 2) hne q p hq hp
  · intro db a n tb now ha hn hinv
    have hv : ((ScoreInput.num n).jsIsNaN || (ScoreInput.num n).jsLtZero) = false := by
      simp [ScoreInput.jsIsNaN, ScoreInput.jsLtZero]
      omega
    exact submitScore_no_invite db a (ScoreInput.num n) (some tb) now ha hv hinv

/-- Witness for C1 at concrete inputs: in `invDB`, `bob` submits score 7;
both `inv` and `bob` gain `floor(7 * 0.5) = 3` (10 → 13), the invitation is
flagged, and a retried `/apply-bonus` afterwards returns 400 and changes
nothing. -/
theorem referral_bonus_exactly_once_witness :
    findUnappliedInvite invDB.invitations "bob" = some ⟨"inv", "bob", false⟩ ∧
    (lookupPlayer (submitScore invDB "bob" (ScoreInput.num 7) (some 0) 1).2.players "inv" =
        some ⟨"inv", 13, 0, 1, true, 0⟩ ∧
      lookupPlayer (submitScore invDB "bob" (ScoreInput.num 7) (some 0) 1).2.players "bob" =
        some ⟨"bob", 13, 0, 2, true, 1⟩ ∧
      findUnappliedInvite
        (submitScore invDB "bob" (ScoreInput.num 7) (some 0) 1).2.invitations "bob" = none) ∧
    applyBonus (submitScore invDB "bob" (ScoreInput.num 7) (some 0) 1).2 "bob"
        (ScoreInput.num 5) =
      (400, (submitScore invDB "bob" (ScoreInput.num 7) (some 0) 1).2) :=
  ⟨by decide,
   referral_bonus_exactly_once.1 invDB "bob" 7 0 1 ⟨"inv", "bob", false⟩
     ⟨"bob", 10, 0, 2, false, 1⟩ ⟨"inv", 10, 0, 1, false, 0⟩
     (by decide) (by decide) (by decide) (by decide) (by decide) (by decide),
   referral_bonus_exactly_once.2.2.2 (submitScore invDB "bob" (ScoreInput.num 7) (some 0) 1).2
     "bob" (ScoreInput.num 5) (by decide)⟩

end BoredTopia

namespace BoredTopia

/-! ## Sortedness of the leaderboard ordering -/

theorem mem_insertScoreDesc (x z : String × Int) (l : List (String × Int)) :
    z ∈ insertScoreDesc x l ↔ z = x ∨ z ∈ l := by
  induction l with
  | nil => simp [insertScoreDesc]
  | cons y ys ih =>
    unfold insertScoreDesc
    by_cases h : y.2 < x.2
    · simp [h]
    · simp only [h, if_false, List.mem_cons, ih]
      tauto

theorem pairwise_insertScoreDesc (x : String × Int) (l : List (String × Int))
    (h : l.Pairwise (fun a b => b.2 ≤ a.2)) :
    (insertScoreDesc x l).Pairwise (fun a b => b.2 ≤ a.2) := by
  induction l with
  | nil => simp [insertScoreDesc]
  | cons y ys ih =>
    rw [List.pairwise_cons] at h
    unfold insertScoreDesc
    by_cases hxy : y.2 < x.2
    · rw [if_pos hxy, List.pairwise_cons]
      constructor
      · intro z hz
        rcases List.mem_cons.1 hz with h1 | h1
        · rw [h1]
          exact le_of_lt hxy
        · exact le_trans (h.1 z h1) (le_of_lt hxy)
      · exact List.pairwise_cons.2 h
    · rw [if_neg hxy, List.pairwise_cons]
      constructor
      · intro z hz
        rcases (mem_insertScoreDesc x z ys).1 hz with h1 | h1
        · rw [h1]
          omega
        · exact h.1 z h1
      · exact ih h.2

theorem sortScoreDesc_sorted (l : List (String × Int)) :
    (sortScoreDesc l).Pairwise (fun a b => b.2 ≤ a.2) := by
  induction l with
  | nil => simp [sortScoreDesc]
  | cons x xs ih =>
    rw [sortScoreDesc]
    exact pairwise_insertScoreDesc x _ ih

theorem leaderboardResults_sorted (db : DB) (rid : Nat) :
    (leaderboardResults db rid).Pairwise (fun a b => b.2 ≤ a.2) :=
  (sortScoreDesc_sorted (roomScores db rid)).sublist
    (List.take_sublist 11 (sortScoreDesc (roomScores db rid)))

theorem leaderboardResults_length_le (db : DB) (rid : Nat) :
    (leaderboardResults db rid).length ≤ 11 :=
  List.length_take_le 11 (sortScoreDesc (roomScores db rid))

theorem leaderboard_eq_spec (db : DB) (rid : Nat) :
    leaderboard db rid = leaderboardSpec db rid := by
  unfold leaderboard leaderboardSpec
  by_cases h : 6 ≤ (leaderboardResults db rid).length
  · rw [if_neg (by omega), dif_pos h]
    have h6 : 5 < (leaderboardResults db rid).length := by omega
    have hgetD : (leaderboardResults db rid).getD 5 ("", 0) =
        (leaderboardResults db rid).get ⟨5, h6⟩ := by
      simp [List.getD_eq_getElem?_getD, List.getElem?_eq_getElem h6]
    rw [hgetD]
    have hfun :
        (fun ip : Nat × (String × Int) =>
          if ip.1 ≠ 5 then
            (ip.2.1, ip.2.2 + Int.fdiv ((leaderboardResults db rid).get ⟨5, h6⟩).2 10)
          else ip.2)
      = (fun ip : Nat × (String × Int) =>
          if ip.1 = 5 then ip.2
          else
            (ip.2.1, ip.2.2 + Int.fdiv ((leaderboardResults db rid).get ⟨5, h6⟩).2 10)) := by
      funext ip
      by_cases h5 : ip.1 = 5 <;> simp [h5]
    rw [hfun]
  · rw [if_pos (by omega), dif_neg h]

end BoredTopia

namespace BoredTopia

/-- The spec's §8 leaderboard example: seven players with scores
[100, 90, 80, 70, 60, 50, 40], all in room 1. -/
def exDB : DB :=
  ⟨[⟨"p1", 100, 0, 1, false, 0⟩, ⟨"p2", 90, 0, 1, false, 0⟩, ⟨"p3", 80, 0, 1, false, 0⟩,
    ⟨"p4", 70, 0, 1, false, 0⟩, ⟨"p5", 60, 0, 1, false, 0⟩, ⟨"p6", 50, 0, 1, false, 0⟩,
    ⟨"p7", 40, 0, 1, false, 0⟩],
   [⟨1, "r", "available"⟩],
   [⟨"p1", 1⟩, ⟨"p2", 1⟩, ⟨"p3", 1⟩, ⟨"p4", 1⟩, ⟨"p5", 1⟩, ⟨"p6", 1⟩, ⟨"p7", 1⟩],
   [], 2⟩

/-- C5: the per-room leaderboard returns the room's players ordered by score
descending, limited to 11 entries; it agrees with the spec-worded
presentation rule (with ≥ 6 entries, `bonus = floor(6th score / 10)` is
added to every displayed player except the 6th); with fewer than 6 entries
the rows are returned unmodified; on the spec's example
[100, 90, 80, 70, 60, 50, 40] the view is [105, 95, 85, 75, 65, 50, 45].
`leaderboard` is a pure function of the database — the adjustment is never
written back. -/
theorem leaderboard_position_bonus :
    (∀ (db : DB) (rid : Nat), leaderboard db rid = leaderboardSpec db rid)
    ∧ (∀ (db : DB) (rid : Nat),
        (leaderboardResults db rid).Pairwise (fun a b => b.2 ≤ a.2) ∧
        (leaderboardResults db rid).length ≤ 11)
    ∧ (∀ (db : DB) (rid : Nat), (leaderboardResults db rid).length < 6 →
        leaderboard db rid = leaderboardResults db rid)
    ∧ leaderboard exDB 1 =
        [("p1", 105), ("p2", 95), ("p3", 85), ("p4", 75), ("p5", 65), ("p6", 50),
         ("p7", 45)] := by
  refine ⟨leaderboard_eq_spec,
    fun db rid => ⟨leaderboardResults_sorted db rid, leaderboardResults_length_le db rid⟩,
    ?_, by decide⟩
  intro db rid h
  unfold leaderboard
  rw [if_pos h]

/-- Witness for C5's under-6 case at a concrete input: `invDB` has no rooms,
so room 1 has fewer than 6 leaderboard rows and they are returned
unmodified. -/
theorem leaderboard_position_bonus_witness :
    (leaderboardResults invDB 1).length < 6 ∧
    leaderboard invDB 1 = leaderboardResults invDB 1 :=
  ⟨by decide, leaderboard_position_bonus.2.2.1 invDB 1 (by decide)⟩

end BoredTopia
